import Mathlib

/-!
Shallow embedding of `main.go` of the opsproxy repository: a transparent
single-target reverse proxy with a raw-relay upgrade path.

Strings are modelled as `List Char` (ASCII model of Go's `strings` package:
`strings.ToLower`, `strings.EqualFold`, `strings.HasPrefix`,
`strings.Contains`).  Network and connection effects are modelled by passing
the outcome of each fallible I/O step (hijack, dial, request replay, the two
`io.Copy` directions) explicitly as an environment, and recording the
observable actions (connections closed, dial kind, event trace) in the
result.
-/

namespace OpsProxy

/-! ### String primitives (models of the Go `strings` package, ASCII range) -/

/-- Model of `strings.ToLower` restricted to ASCII (sufficient for the
letters compared in this program). -/
def lowerStr (s : List Char) : List Char := s.map Char.toLower

/-- Model of `strings.HasPrefix s pre`. -/
def startsWith : List Char → List Char → Bool
  | _, [] => true
  | [], _ :: _ => false
  | a :: as, b :: bs => a == b && startsWith as bs

/-- Model of `strings.Contains s sub` (substring containment). -/
def containsStr : List Char → List Char → Bool
  | [], sub => startsWith [] sub
  | a :: as, sub => startsWith (a :: as) sub || containsStr as sub

/-- Model of `strings.EqualFold` (ASCII simple case folding: equal after
lowering; coincides with Go's rune folding on the ASCII letters used here). -/
def equalFold (a b : List Char) : Bool := lowerStr a == lowerStr b

/-! ### String literals from `main.go` -/

def upgradeLit : List Char := "upgrade".toList

def httpPrefixLit : List Char := "http://".toList

def httpsPrefixLit : List Char := "https://".toList

def httpsLit : List Char := "https".toList

def verboseLit : List Char := "verbose".toList

def infoLit : List Char := "info".toList

def errorLit : List Char := "error".toList

/-- Body written by `http.Error(w, "Bad Gateway", http.StatusBadGateway)`
(`http.Error` appends a newline to the message). -/
def badGatewayBody : List Char := "Bad Gateway\n".toList

/-! ### Data model -/

/-- An inbound HTTP request, as consumed by the core: `connectionHeader` and
`upgradeHeader` are the results of `r.Header.Get("Connection")` and
`r.Header.Get("Upgrade")` (first value of the header, or empty). -/
structure Request where
  method : List Char
  url : List Char
  remoteAddr : List Char
  connectionHeader : List Char
  upgradeHeader : List Char

/-- The resolved upstream target `u : *url.URL`: `scheme` is `u.Scheme` and
`host` is `u.Host` (hostname with optional embedded `:port`). -/
structure Target where
  scheme : List Char
  host : List Char

/-! ### isUpgradeRequest (main.go lines 114-124) -/

/-- Model of `isUpgradeRequest`: `strings.EqualFold(up, "upgrade")`, then
`strings.Contains(strings.ToLower(up), "upgrade")`, then
`r.Header.Get("Upgrade") != ""`. -/
def isUpgradeRequest (r : Request) : Bool :=
  if equalFold r.connectionHeader upgradeLit then true
  else if containsStr (lowerStr r.connectionHeader) upgradeLit then true
  else !(r.upgradeHeader == [])

/-! ### Target URL construction (main.go lines 43-54) -/

/-- Model of the target-URL construction in `main`: if `targetHost` starts
with a scheme, keep it, appending `:port` only when the string has no `:`;
otherwise prepend `http://` and append `:port`. -/
def buildTarget (targetHost : List Char) (targetPort : Nat) : List Char :=
  if startsWith targetHost httpPrefixLit || startsWith targetHost httpsPrefixLit then
    if containsStr targetHost [':'] then targetHost
    else targetHost ++ ':' :: (Nat.repr targetPort).toList
  else
    httpPrefixLit ++ targetHost ++ ':' :: (Nat.repr targetPort).toList

/-! ### Helper lemmas on the string primitives -/

theorem startsWith_self (s : List Char) : startsWith s s = true := by
  induction s with
  | nil => rfl
  | cons a as ih => simp [startsWith, ih]

theorem containsStr_self (s : List Char) : containsStr s s = true := by
  cases s with
  | nil => rfl
  | cons a as => simp [containsStr, startsWith_self]

theorem lowerStr_upgradeLit : lowerStr upgradeLit = upgradeLit := by decide

theorem contains_of_equalFold (s : List Char)
    (h : equalFold s upgradeLit = true) :
    containsStr (lowerStr s) upgradeLit = true := by
  unfold equalFold at h
  have h' : lowerStr s = lowerStr upgradeLit := eq_of_beq h
  rw [h', lowerStr_upgradeLit]
  exact containsStr_self _

theorem mem_of_startsWith {s pre : List Char}
    (h : startsWith s pre = true) : ∀ c ∈ pre, c ∈ s := by
  induction pre generalizing s with
  | nil => intro c hc; cases hc
  | cons b bs ih =>
      cases s with
      | nil => cases h
      | cons a as =>
          simp only [startsWith, Bool.and_eq_true, beq_iff_eq] at h
          intro c hc
          rcases List.mem_cons.mp hc with hcb | hcbs
          · subst hcb; rw [← h.1]; exact List.mem_cons_self _ _
          · exact List.mem_cons_of_mem _ (ih h.2 c hcbs)

theorem containsStr_single_of_mem {s : List Char} {c : Char}
    (h : c ∈ s) : containsStr s [c] = true := by
  induction s with
  | nil => cases h
  | cons a as ih =>
      rcases List.mem_cons.mp h with hca | hcas
      · subst hca
        simp [containsStr, startsWith]
      · simp [containsStr, ih hcas]

theorem isUpgradeRequest_eq (r : Request) :
    isUpgradeRequest r =
      (containsStr (lowerStr r.connectionHeader) upgradeLit
        || !(r.upgradeHeader == [])) := by
  unfold isUpgradeRequest
  by_cases h1 : equalFold r.connectionHeader upgradeLit = true
  · rw [if_pos h1, contains_of_equalFold _ h1, Bool.true_or]
  · rw [if_neg h1]
    by_cases h2 : containsStr (lowerStr r.connectionHeader) upgradeLit = true
    · rw [if_pos h2, h2, Bool.true_or]
    · rw [if_neg h2, Bool.eq_false_iff.mpr h2, Bool.false_or]

/-! ### Claim theorems: classifier and target resolution -/

/-- Claim C1: `isUpgradeRequest` returns true iff the Connection header value
case-insensitively contains the substring "upgrade" (case-insensitive
equality being a special case of containment) or the Upgrade header is
non-empty; it is a pure function of the two headers. -/
theorem claim1_upgrade_classifier (r : Request) :
    isUpgradeRequest r = true ↔
      (containsStr (lowerStr r.connectionHeader) upgradeLit = true
        ∨ r.upgradeHeader ≠ []) := by
  rw [isUpgradeRequest_eq]
  simp [Bool.or_eq_true]

def hostWithPortLit : List Char := "https://example.com:9443".toList

def hostNoPortLit : List Char := "https://example.com".toList

/-- Claim C9: a target-host that embeds a scheme and an explicit port keeps
both; the separate target-port flag is ignored for every value. -/
theorem claim9_embedded_port_wins (p : Nat) :
    buildTarget hostWithPortLit p = hostWithPortLit := by
  have h1 : (startsWith hostWithPortLit httpPrefixLit
      || startsWith hostWithPortLit httpsPrefixLit) = true := by decide
  have h2 : containsStr hostWithPortLit [':'] = true := by decide
  unfold buildTarget
  rw [h1, if_pos rfl, if_pos h2]

/-- Claim C10: any scheme-prefixed target-host already contains a colon (the
scheme's own), so the port-appending branch is unreachable and the host is
returned unchanged, with no port appended. -/
theorem claim10_scheme_colon_skips_port (host : List Char) (p : Nat)
    (h : startsWith host httpPrefixLit = true
      ∨ startsWith host httpsPrefixLit = true) :
    buildTarget host p = host := by
  have hcolon : containsStr host [':'] = true := by
    rcases h with h | h
    · exact containsStr_single_of_mem (mem_of_startsWith h ':' (by decide))
    · exact containsStr_single_of_mem (mem_of_startsWith h ':' (by decide))
  have h1 : (startsWith host httpPrefixLit
      || startsWith host httpsPrefixLit) = true := by
    rcases h with h | h
    · rw [h, Bool.true_or]
    · rw [h, Bool.or_true]
  unfold buildTarget
  rw [h1, if_pos rfl, if_pos hcolon]

/-- Witness for C10: `https://example.com` with target-port 9999 resolves to
`https://example.com`, unchanged. -/
theorem claim10_witness :
    buildTarget hostNoPortLit 9999 = hostNoPortLit :=
  claim10_scheme_colon_skips_port hostNoPortLit 9999 (Or.inr (by decide))

/-! ### proxyUpgrade (main.go lines 129-176) -/

/-- How the backend connection is dialed: `tls.Dial` with a `tls.Config`
carrying `InsecureSkipVerify`, or plain `net.Dial "tcp"`. -/
inductive DialKind where
  | tls (insecureSkipVerify : Bool)
  | tcp
deriving DecidableEq

/-- Observable events of one `proxyUpgrade` call, in program order. -/
inductive Ev where
  | hijacked
  | dialed
  | replayed
  | relayStarted
deriving DecidableEq

/-- Outcomes of the fallible I/O steps of one `proxyUpgrade` call, supplied
by the environment.  `relayOutcomes` lists the values sent on `errc` in
arrival order (each `io.Copy` sends its error; `none` models a nil error,
i.e. EOF); the blocking receive `e := <-errc` takes the first arrival. -/
structure UpgradeEnv where
  hijackSupported : Bool
  hijackResult : Except (List Char) Unit
  dialResult : Except (List Char) Unit
  replayResult : Except (List Char) Unit
  relayOutcomes : List (Option (List Char))

def hijackNotSupportedErr : List Char :=
  "response writer does not support hijacking".toList

def hijackFailedErr (e : List Char) : List Char :=
  "hijack failed: ".toList ++ e

def dialBackendErr (addr e : List Char) : List Char :=
  "dial backend ".toList ++ addr ++ ": ".toList ++ e

def writeRequestErr (e : List Char) : List Char :=
  "writing request to backend: ".toList ++ e

/-- What one `proxyUpgrade` call did: its returned error, whether the client
connection was hijacked and closed, the dial it attempted (kind and address),
whether a backend connection was created and closed, whether the byte relay
was started, how many dial attempts were made, and the event trace. -/
structure UpgradeResult where
  err : Option (List Char)
  hijacked : Bool
  clientClosed : Bool
  dialKind : Option DialKind
  dialAddr : Option (List Char)
  backendDialed : Bool
  backendClosed : Bool
  relayStarted : Bool
  dialAttempts : Nat
  trace : List Ev

/-- Model of `proxyUpgrade(w, r, u)`.  The `defer clientConn.Close()` after a
successful hijack and the `defer backendConn.Close()` after a successful dial
make `clientClosed`/`backendClosed` true on every later exit path.  A failed
dial returns a nil connection in Go, so no backend connection exists to leak
on that path. -/
def proxyUpgrade (r : Request) (u : Target) (env : UpgradeEnv) : UpgradeResult :=
  if env.hijackSupported then
    match env.hijackResult with
    | Except.error e =>
        { err := some (hijackFailedErr e), hijacked := false, clientClosed := false,
          dialKind := none, dialAddr := none, backendDialed := false,
          backendClosed := false, relayStarted := false, dialAttempts := 0,
          trace := [] }
    | Except.ok _ =>
        let kind : DialKind :=
          if u.scheme == httpsLit then DialKind.tls true else DialKind.tcp
        match env.dialResult with
        | Except.error e =>
            { err := some (dialBackendErr u.host e), hijacked := true,
              clientClosed := true, dialKind := some kind, dialAddr := some u.host,
              backendDialed := false, backendClosed := false, relayStarted := false,
              dialAttempts := 1, trace := [Ev.hijacked] }
        | Except.ok _ =>
            match env.replayResult with
            | Except.error e =>
                { err := some (writeRequestErr e), hijacked := true,
                  clientClosed := true, dialKind := some kind,
                  dialAddr := some u.host, backendDialed := true,
                  backendClosed := true, relayStarted := false, dialAttempts := 1,
                  trace := [Ev.hijacked, Ev.dialed] }
            | Except.ok _ =>
                { err := env.relayOutcomes.headD none, hijacked := true,
                  clientClosed := true, dialKind := some kind,
                  dialAddr := some u.host, backendDialed := true,
                  backendClosed := true, relayStarted := true, dialAttempts := 1,
                  trace := [Ev.hijacked, Ev.dialed, Ev.replayed, Ev.relayStarted] }
  else
    { err := some hijackNotSupportedErr, hijacked := false, clientClosed := false,
      dialKind := none, dialAddr := none, backendDialed := false,
      backendClosed := false, relayStarted := false, dialAttempts := 0,
      trace := [] }

/-! ### Concrete inputs used by the witnesses -/

def reqPlain : Request :=
  { method := "GET".toList, url := "/index.html".toList,
    remoteAddr := "10.0.0.7:55123".toList,
    connectionHeader := "keep-alive".toList, upgradeHeader := [] }

def reqUp : Request :=
  { method := "GET".toList, url := "/ws".toList,
    remoteAddr := "10.0.0.7:55124".toList,
    connectionHeader := "keep-alive, Upgrade".toList,
    upgradeHeader := "websocket".toList }

def tgtHttp : Target :=
  { scheme := "http".toList, host := "127.0.0.1:8080".toList }

def tgtHttps : Target :=
  { scheme := "https".toList, host := "example.com:9443".toList }

def refusedErr : List Char := "connection refused".toList

def copyErr : List Char := "connection reset by peer".toList

def envDialFail : UpgradeEnv :=
  { hijackSupported := true, hijackResult := Except.ok (),
    dialResult := Except.error refusedErr, replayResult := Except.ok (),
    relayOutcomes := [] }

def envRelay : UpgradeEnv :=
  { hijackSupported := true, hijackResult := Except.ok (),
    dialResult := Except.ok (), replayResult := Except.ok (),
    relayOutcomes := [some copyErr, none] }

/-! ### Claim theorems: upgrade relay -/

/-- Claim C5: when the hijack succeeds and the backend dial fails,
`proxyUpgrade` returns a non-nil error, no byte relay is performed, the
client connection is closed (by the deferred close), no backend connection
was created, and exactly one dial attempt was made (no retry). -/
theorem claim5_dial_failure_aborts (r : Request) (u : Target) (env : UpgradeEnv)
    (e : List Char)
    (hsup : env.hijackSupported = true)
    (hhj : env.hijackResult = Except.ok ())
    (hdial : env.dialResult = Except.error e) :
    (proxyUpgrade r u env).err = some (dialBackendErr u.host e) ∧
    (proxyUpgrade r u env).relayStarted = false ∧
    (proxyUpgrade r u env).clientClosed = true ∧
    (proxyUpgrade r u env).backendDialed = false ∧
    (proxyUpgrade r u env).backendClosed = false ∧
    (proxyUpgrade r u env).dialAttempts = 1 := by
  simp [proxyUpgrade, hsup, hhj, hdial]

/-- Witness for C5: a concrete dial failure. -/
theorem claim5_witness :
    (proxyUpgrade reqUp tgtHttp envDialFail).err
        = some (dialBackendErr tgtHttp.host refusedErr) ∧
    (proxyUpgrade reqUp tgtHttp envDialFail).relayStarted = false ∧
    (proxyUpgrade reqUp tgtHttp envDialFail).clientClosed = true ∧
    (proxyUpgrade reqUp tgtHttp envDialFail).backendDialed = false ∧
    (proxyUpgrade reqUp tgtHttp envDialFail).backendClosed = false ∧
    (proxyUpgrade reqUp tgtHttp envDialFail).dialAttempts = 1 :=
  claim5_dial_failure_aborts reqUp tgtHttp envDialFail refusedErr rfl rfl rfl

/-- Claim C6: on every exit path, the client connection is closed exactly
when the hijack succeeded and the backend connection is closed exactly when
the dial succeeded (so in particular every post-hijack exit closes the
client and every post-dial exit closes the backend); when the relay runs,
the value returned to the caller is the first outcome received on the
completion channel (first finisher wins, error or nil). -/
theorem claim6_guaranteed_release (r : Request) (u : Target) (env : UpgradeEnv) :
    (proxyUpgrade r u env).clientClosed = (proxyUpgrade r u env).hijacked ∧
    (proxyUpgrade r u env).backendClosed = (proxyUpgrade r u env).backendDialed ∧
    ((proxyUpgrade r u env).relayStarted = true →
      (proxyUpgrade r u env).err = env.relayOutcomes.headD none) := by
  rcases env with ⟨hs, hr, hd, hrep, outs⟩
  cases hs <;> cases hr <;> cases hd <;> cases hrep <;>
    simp [proxyUpgrade]

/-- Witness for C6: a concrete relay whose first-arriving copy outcome is an
error; that outcome is what `proxyUpgrade` returns. -/
theorem claim6_witness :
    (proxyUpgrade reqUp tgtHttp envRelay).err
      = envRelay.relayOutcomes.headD none :=
  (claim6_guaranteed_release reqUp tgtHttp envRelay).2.2 rfl

/-- Claim C7: the byte relay only ever starts after hijack, dial and the
full request replay, in that order (the trace is then exactly
`[hijacked, dialed, replayed, relayStarted]`), and a replay failure means
the relay never starts: no raw client byte is forwarded before the backend
has received the original request metadata. -/
theorem claim7_replay_before_relay (r : Request) (u : Target) (env : UpgradeEnv) :
    (Ev.relayStarted ∈ (proxyUpgrade r u env).trace →
      (proxyUpgrade r u env).trace
        = [Ev.hijacked, Ev.dialed, Ev.replayed, Ev.relayStarted]) ∧
    (∀ e, env.replayResult = Except.error e →
      Ev.relayStarted ∉ (proxyUpgrade r u env).trace) := by
  rcases env with ⟨hs, hr, hd, hrep, outs⟩
  cases hs <;> cases hr <;> cases hd <;> cases hrep <;>
    simp [proxyUpgrade]

/-- Witness for C7: on a concrete successful relay the trace is exactly the
ordered four-event trace. -/
theorem claim7_witness :
    (proxyUpgrade reqUp tgtHttp envRelay).trace
      = [Ev.hijacked, Ev.dialed, Ev.replayed, Ev.relayStarted] :=
  (claim7_replay_before_relay reqUp tgtHttp envRelay).1 (by decide)

/-- Claim C8: whenever the dial is reached (hijack succeeded), the backend is
dialed at the Target's host component (`u.Host`, the host with its embedded
port); scheme "https" selects a TLS dial with certificate verification
disabled (`InsecureSkipVerify: true`), any other scheme a plain TCP dial. -/
theorem claim8_dial_by_scheme (r : Request) (u : Target) (env : UpgradeEnv)
    (hsup : env.hijackSupported = true)
    (hhj : env.hijackResult = Except.ok ()) :
    (proxyUpgrade r u env).dialAddr = some u.host ∧
    (u.scheme = httpsLit →
      (proxyUpgrade r u env).dialKind = some (DialKind.tls true)) ∧
    (u.scheme ≠ httpsLit →
      (proxyUpgrade r u env).dialKind = some DialKind.tcp) := by
  rcases env with ⟨hs, hr, hd, hrep, outs⟩
  subst hsup
  subst hhj
  cases hd <;> cases hrep <;> simp [proxyUpgrade]

/-- Witness for C8: an https target dials TLS with verification disabled; an
http target dials plain TCP; both at the target's host:port. -/
theorem claim8_witness :
    (proxyUpgrade reqUp tgtHttps envRelay).dialKind = some (DialKind.tls true) ∧
    (proxyUpgrade reqUp tgtHttp envRelay).dialKind = some DialKind.tcp ∧
    (proxyUpgrade reqUp tgtHttps envRelay).dialAddr = some tgtHttps.host :=
  ⟨(claim8_dial_by_scheme reqUp tgtHttps envRelay rfl rfl).2.1 (by decide),
   (claim8_dial_by_scheme reqUp tgtHttp envRelay rfl rfl).2.2 (by decide),
   (claim8_dial_by_scheme reqUp tgtHttps envRelay rfl rfl).1⟩

/-! ### Dispatcher and log model (main.go lines 64-100) -/

/-- One structured log line emitted by the core: `FORWARD`, `FIRST`, the
ordinary-path `ERROR: forwarding ...` line, or the upgrade-path
`ERROR: upgrade proxy ...` line. -/
inductive LogLine where
  | forward (method url remoteAddr : List Char)
  | first (method url remoteAddr : List Char)
  | errForward (method url remoteAddr errMsg : List Char)
  | errUpgrade (method url remoteAddr errMsg : List Char)
deriving DecidableEq

/-- An HTTP response as seen by the client. -/
structure HttpResponse where
  status : Nat
  body : List Char
deriving DecidableEq

/-- The response written by `http.Error(w, "Bad Gateway", 502)`. -/
def badGatewayResponse : HttpResponse := { status := 502, body := badGatewayBody }

/-- Model of `proxy.ErrorHandler` (main.go lines 64-67): log one ERROR line
with method, URL and remote address, and write 502 Bad Gateway with the
fixed plain-text body. -/
def errorHandler (r : Request) (e : List Char) : List LogLine × HttpResponse :=
  ([LogLine.errForward r.method r.url r.remoteAddr e], badGatewayResponse)

/-- Model of the log-level switch of the handler (main.go lines 81-96),
returning the emitted lines and the new value of the `firstLogged` flag.
`atomic.CompareAndSwapInt32(&firstLogged, 0, 1)` succeeds (and the FIRST
line is logged) exactly when the flag was 0; in the "info" and default
branches the flag is 1 afterwards either way. -/
def levelLog (logLevel : List Char) (firstLogged : Bool) (r : Request) :
    List LogLine × Bool :=
  let lvl := lowerStr logLevel
  if lvl == verboseLit then
    ([LogLine.forward r.method r.url r.remoteAddr], firstLogged)
  else if lvl == infoLit then
    (if firstLogged then ([], true)
     else ([LogLine.first r.method r.url r.remoteAddr], true))
  else if lvl == errorLit then ([], firstLogged)
  else
    (if firstLogged then ([], true)
     else ([LogLine.first r.method r.url r.remoteAddr], true))

/-- True for the log levels whose branch performs the compare-and-swap:
"info" and every unrecognized level (everything but "verbose" and "error"),
after lowering. -/
def casLevel (logLevel : List Char) : Bool :=
  let lvl := lowerStr logLevel
  !(lvl == verboseLit) && !(lvl == errorLit)

/-- Result of dispatching one request: the log lines emitted, the value of
the `firstLogged` flag afterwards, the HTTP response delivered to the client
(`none` when the connection was hijacked or the relay succeeded), and
whether `http.Error(w, "Bad Gateway", 502)` was called. -/
structure DispatchResult where
  logs : List LogLine
  firstLogged : Bool
  clientResponse : Option HttpResponse
  error502Called : Bool

/-- Model of the request handler (main.go lines 72-100) together with
`proxy.ServeHTTP`: an upgrade request goes to `proxyUpgrade`, and a non-nil
error is logged and answered with `http.Error ... 502`; a write to the
ResponseWriter after a successful hijack cannot reach the client
(`net/http` returns `ErrHijacked`), so the delivered response is `none`
then.  An ordinary request first runs the log-level switch, then forwards;
`backend` is the outcome of the round trip, and a failure is handled by
`proxy.ErrorHandler`. -/
def handler (u : Target) (logLevel : List Char) (firstLogged : Bool)
    (r : Request) (env : UpgradeEnv)
    (backend : Except (List Char) HttpResponse) : DispatchResult :=
  if isUpgradeRequest r then
    let res := proxyUpgrade r u env
    match res.err with
    | some e =>
        { logs := [LogLine.errUpgrade r.method r.url r.remoteAddr e],
          firstLogged := firstLogged,
          clientResponse := if res.hijacked then none else some badGatewayResponse,
          error502Called := true }
    | none =>
        { logs := [], firstLogged := firstLogged, clientResponse := none,
          error502Called := false }
  else
    let ll := levelLog logLevel firstLogged r
    match backend with
    | Except.ok resp =>
        { logs := ll.1, firstLogged := ll.2, clientResponse := some resp,
          error502Called := false }
    | Except.error e =>
        let eh := errorHandler r e
        { logs := ll.1 ++ eh.1, firstLogged := ll.2,
          clientResponse := some eh.2, error502Called := true }

/-- True exactly for ordinary-path `ERROR: forwarding` lines. -/
def isErrForwardLine : LogLine → Bool
  | LogLine.errForward _ _ _ _ => true
  | _ => false

/-- True exactly for FIRST lines. -/
def isFirstLine : LogLine → Bool
  | LogLine.first _ _ _ => true
  | _ => false

/-- Number of FIRST lines in a log. -/
def countFirst (ls : List LogLine) : Nat := ls.countP isFirstLine

theorem levelLog_no_errForward (logLevel : List Char) (f : Bool) (r : Request) :
    (levelLog logLevel f r).1.countP isErrForwardLine = 0 := by
  unfold levelLog
  by_cases h1 : (lowerStr logLevel == verboseLit) = true
  · simp [h1, isErrForwardLine]
  · by_cases h2 : (lowerStr logLevel == infoLit) = true
    · cases f <;> simp [h1, h2, isErrForwardLine]
    · by_cases h3 : (lowerStr logLevel == errorLit) = true
      · simp [h1, h2, h3]
      · cases f <;> simp [h1, h2, h3, isErrForwardLine]

/-! ### Claim theorems: dispatcher -/

/-- Claim C2: for every ordinary-path request whose forwarding fails, at
every log level the handler emits exactly one ordinary-path ERROR line,
that line carries the request's method, URL and remote address, and the
client receives 502 Bad Gateway with the fixed body `"Bad Gateway\n"` —
never the raw backend error. -/
theorem claim2_ordinary_error_translation (u : Target) (logLevel : List Char)
    (f : Bool) (r : Request) (env : UpgradeEnv) (e : List Char)
    (hord : isUpgradeRequest r = false) :
    (handler u logLevel f r env (Except.error e)).logs.countP isErrForwardLine
        = 1 ∧
    LogLine.errForward r.method r.url r.remoteAddr e
        ∈ (handler u logLevel f r env (Except.error e)).logs ∧
    (handler u logLevel f r env (Except.error e)).clientResponse
        = some { status := 502, body := badGatewayBody } := by
  refine ⟨?_, ?_, ?_⟩
  · simp [handler, hord, errorHandler, List.countP_append,
      levelLog_no_errForward, isErrForwardLine]
  · simp [handler, hord, errorHandler]
  · simp [handler, hord, errorHandler, badGatewayResponse]

/-- Witness for C2: a concrete ordinary request with a failed backend, at
log level "error". -/
theorem claim2_witness :
    (handler tgtHttp errorLit false reqPlain envRelay
        (Except.error refusedErr)).logs.countP isErrForwardLine = 1 ∧
    LogLine.errForward reqPlain.method reqPlain.url reqPlain.remoteAddr
        refusedErr
      ∈ (handler tgtHttp errorLit false reqPlain envRelay
          (Except.error refusedErr)).logs ∧
    (handler tgtHttp errorLit false reqPlain envRelay
        (Except.error refusedErr)).clientResponse
      = some { status := 502, body := badGatewayBody } :=
  claim2_ordinary_error_translation tgtHttp errorLit false reqPlain envRelay
    refusedErr (by decide)

/-- Claim C4: for every upgrade request on which `proxyUpgrade` reports a
non-nil error, the dispatcher emits the upgrade ERROR line (with method, URL
and remote address) and calls `http.Error ... 502`; the 502 actually reaches
the client exactly when the failure happened before the connection hijack,
since after a hijack no HTTP response can be written. -/
theorem claim4_upgrade_failure_502 (u : Target) (logLevel : List Char)
    (f : Bool) (r : Request) (env : UpgradeEnv)
    (backend : Except (List Char) HttpResponse) (e : List Char)
    (hup : isUpgradeRequest r = true)
    (herr : (proxyUpgrade r u env).err = some e) :
    (handler u logLevel f r env backend).logs
        = [LogLine.errUpgrade r.method r.url r.remoteAddr e] ∧
    (handler u logLevel f r env backend).error502Called = true ∧
    ((handler u logLevel f r env backend).clientResponse
        = some badGatewayResponse
      ↔ (proxyUpgrade r u env).hijacked = false) := by
  refine ⟨?_, ?_, ?_⟩
  · simp [handler, hup, herr]
  · simp [handler, hup, herr]
  · cases hh : (proxyUpgrade r u env).hijacked <;>
      simp [handler, hup, herr, hh]

/-- Witness for C4: a concrete upgrade request whose hijack is refused by
the transport (pre-hijack failure), so the 502 reaches the client. -/
theorem claim4_witness :
    (handler tgtHttp infoLit false reqUp
        { hijackSupported := false, hijackResult := Except.ok (),
          dialResult := Except.ok (), replayResult := Except.ok (),
          relayOutcomes := [] } (Except.ok badGatewayResponse)).logs
      = [LogLine.errUpgrade reqUp.method reqUp.url reqUp.remoteAddr
          hijackNotSupportedErr] ∧
    (handler tgtHttp infoLit false reqUp
        { hijackSupported := false, hijackResult := Except.ok (),
          dialResult := Except.ok (), replayResult := Except.ok (),
          relayOutcomes := [] } (Except.ok badGatewayResponse)).error502Called
      = true ∧
    ((handler tgtHttp infoLit false reqUp
        { hijackSupported := false, hijackResult := Except.ok (),
          dialResult := Except.ok (), replayResult := Except.ok (),
          relayOutcomes := [] } (Except.ok badGatewayResponse)).clientResponse
        = some badGatewayResponse
      ↔ (proxyUpgrade reqUp tgtHttp
          { hijackSupported := false, hijackResult := Except.ok (),
            dialResult := Except.ok (), replayResult := Except.ok (),
            relayOutcomes := [] }).hijacked = false) :=
  claim4_upgrade_failure_502 tgtHttp infoLit false reqUp
    { hijackSupported := false, hijackResult := Except.ok (),
      dialResult := Except.ok (), replayResult := Except.ok (),
      relayOutcomes := [] } (Except.ok badGatewayResponse)
    hijackNotSupportedErr (by decide) rfl

/-! ### The FIRST-log invariant (C3) -/

/-- One inbound request together with the outcomes of the I/O it triggers. -/
structure Arrival where
  req : Request
  env : UpgradeEnv
  backend : Except (List Char) HttpResponse

/-- A whole process lifetime at one log level: the requests are handled one
after the other in an arbitrary arrival order.  The only shared mutable
state is the `firstLogged` flag, and its only access is the single atomic
compare-and-swap inside `handler`, so every concurrent execution is
equivalent to running the handlers in the linearization order of their CAS
operations — which is exactly what an arbitrary `List Arrival` ranges over. -/
def runRequests (u : Target) (logLevel : List Char) (firstLogged : Bool) :
    List Arrival → Bool × List LogLine
  | [] => (firstLogged, [])
  | a :: rest =>
      let res := handler u logLevel firstLogged a.req a.env a.backend
      let next := runRequests u logLevel res.firstLogged rest
      (next.1, res.logs ++ next.2)

theorem countFirst_append (xs ys : List LogLine) :
    countFirst (xs ++ ys) = countFirst xs + countFirst ys := by
  simp [countFirst]

theorem levelLog_flag (logLevel : List Char) (f : Bool) (r : Request) :
    (levelLog logLevel f r).2 = (f || casLevel logLevel) := by
  unfold levelLog casLevel
  by_cases h1 : (lowerStr logLevel == verboseLit) = true
  · simp [h1]
  · by_cases h2 : (lowerStr logLevel == infoLit) = true
    · have he : (lowerStr logLevel == errorLit) = false := by
        rw [eq_of_beq h2]; decide
      cases f <;> simp [h1, h2, he]
    · by_cases h3 : (lowerStr logLevel == errorLit) = true
      · simp [h1, h2, h3]
      · cases f <;> simp [h1, h2, h3]

theorem levelLog_countFirst (logLevel : List Char) (f : Bool) (r : Request) :
    countFirst (levelLog logLevel f r).1
      = (if (!f && casLevel logLevel) = true then 1 else 0) := by
  unfold levelLog casLevel
  by_cases h1 : (lowerStr logLevel == verboseLit) = true
  · simp [h1, countFirst, isFirstLine]
  · by_cases h2 : (lowerStr logLevel == infoLit) = true
    · have he : (lowerStr logLevel == errorLit) = false := by
        rw [eq_of_beq h2]; decide
      cases f <;> simp [h1, h2, he, countFirst, isFirstLine]
    · by_cases h3 : (lowerStr logLevel == errorLit) = true
      · simp [h1, h2, h3, countFirst]
      · cases f <;> simp [h1, h2, h3, countFirst, isFirstLine]

theorem handler_flag (u : Target) (logLevel : List Char) (f : Bool)
    (r : Request) (env : UpgradeEnv) (b : Except (List Char) HttpResponse) :
    (handler u logLevel f r env b).firstLogged
      = (f || (!(isUpgradeRequest r) && casLevel logLevel)) := by
  unfold handler
  cases hu : isUpgradeRequest r
  · cases b <;> simp [hu, levelLog_flag]
  · cases he : (proxyUpgrade r u env).err <;> simp [hu, he]

theorem handler_countFirst (u : Target) (logLevel : List Char) (f : Bool)
    (r : Request) (env : UpgradeEnv) (b : Except (List Char) HttpResponse) :
    countFirst (handler u logLevel f r env b).logs
      = (if (!f && (!(isUpgradeRequest r) && casLevel logLevel)) = true
          then 1 else 0) := by
  unfold handler
  cases hu : isUpgradeRequest r
  · cases b with
    | ok resp => simp [hu, levelLog_countFirst]
    | error e =>
        simp only [hu, Bool.false_eq_true, if_false, errorHandler,
          countFirst_append, levelLog_countFirst]
        simp [countFirst, isFirstLine]
  · cases he : (proxyUpgrade r u env).err <;>
      simp [hu, he, countFirst, isFirstLine]

theorem runRequests_true (u : Target) (logLevel : List Char)
    (as : List Arrival) :
    (runRequests u logLevel true as).1 = true ∧
    countFirst (runRequests u logLevel true as).2 = 0 := by
  induction as with
  | nil => exact ⟨rfl, rfl⟩
  | cons a rest ih =>
      have hf : (handler u logLevel true a.req a.env a.backend).firstLogged
          = true := by
        rw [handler_flag]; simp
      have hc : countFirst (handler u logLevel true a.req a.env a.backend).logs
          = 0 := by
        rw [handler_countFirst]; simp
      simp only [runRequests, hf, countFirst_append, hc]
      exact ⟨ih.1, by rw [ih.2]⟩

theorem runRequests_le_one (u : Target) (logLevel : List Char)
    (as : List Arrival) :
    countFirst (runRequests u logLevel false as).2 ≤ 1 := by
  induction as with
  | nil => simp [runRequests, countFirst]
  | cons a rest ih =>
      cases hc : (!(isUpgradeRequest a.req) && casLevel logLevel)
      · have h1 : countFirst
            (handler u logLevel false a.req a.env a.backend).logs = 0 := by
          rw [handler_countFirst]; simp [hc]
        have h2 : (handler u logLevel false a.req a.env a.backend).firstLogged
            = false := by
          rw [handler_flag, hc]; rfl
        simp only [runRequests, h1, h2, countFirst_append]
        simpa using ih
      · have h1 : countFirst
            (handler u logLevel false a.req a.env a.backend).logs = 1 := by
          rw [handler_countFirst]; simp [hc]
        have h2 : (handler u logLevel false a.req a.env a.backend).firstLogged
            = true := by
          rw [handler_flag, hc]; rfl
        simp [runRequests, h1, h2, countFirst_append,
          (runRequests_true u logLevel rest).2]

theorem runRequests_exists_one (u : Target) (logLevel : List Char)
    (as : List Arrival) (hcas : casLevel logLevel = true)
    (hex : ∃ a ∈ as, isUpgradeRequest a.req = false) :
    countFirst (runRequests u logLevel false as).2 = 1 := by
  induction as with
  | nil => rcases hex with ⟨a, ha, _⟩; cases ha
  | cons a rest ih =>
      cases hu : isUpgradeRequest a.req
      · have h1 : countFirst
            (handler u logLevel false a.req a.env a.backend).logs = 1 := by
          rw [handler_countFirst]; simp [hu, hcas]
        have h2 : (handler u logLevel false a.req a.env a.backend).firstLogged
            = true := by
          rw [handler_flag]; simp [hu, hcas]
        simp only [runRequests, h1, h2, countFirst_append,
          (runRequests_true u logLevel rest).2]
      · have h1 : countFirst
            (handler u logLevel false a.req a.env a.backend).logs = 0 := by
          rw [handler_countFirst]; simp [hu]
        have h2 : (handler u logLevel false a.req a.env a.backend).firstLogged
            = false := by
          rw [handler_flag]; simp [hu]
        have hex' : ∃ b ∈ rest, isUpgradeRequest b.req = false := by
          rcases hex with ⟨b, hb, hbord⟩
          rcases List.mem_cons.mp hb with rfl | hbrest
          · rw [hu] at hbord; cases hbord
          · exact ⟨b, hbrest, hbord⟩
        simp only [runRequests, h1, h2, countFirst_append]
        simpa using ih hex'

theorem casLevel_eq (logLevel : List Char) (hcas : casLevel logLevel = true) :
    (lowerStr logLevel == verboseLit) = false ∧
    (lowerStr logLevel == errorLit) = false := by
  simp only [casLevel, Bool.and_eq_true, Bool.not_eq_true'] at hcas
  exact hcas

theorem levelLog_info (logLevel : List Char) (f : Bool) (r : Request)
    (hcas : casLevel logLevel = true) :
    levelLog logLevel f r = levelLog infoLit f r := by
  obtain ⟨hv, he⟩ := casLevel_eq logLevel hcas
  have r1 : (lowerStr infoLit == verboseLit) = false := by decide
  have r2 : (lowerStr infoLit == infoLit) = true := by decide
  unfold levelLog
  by_cases h2 : (lowerStr logLevel == infoLit) = true
  · simp [hv, he, r1, r2, h2]
  · simp [hv, he, r1, r2, h2]

theorem handler_info (u : Target) (logLevel : List Char) (f : Bool)
    (r : Request) (env : UpgradeEnv) (b : Except (List Char) HttpResponse)
    (hcas : casLevel logLevel = true) :
    handler u logLevel f r env b = handler u infoLit f r env b := by
  unfold handler
  cases hu : isUpgradeRequest r
  · simp [hu, levelLog_info logLevel f r hcas]
  · simp [hu]

/-- Claim C3: at log level "info" and at every unrecognized level (which
behaves identically to "info"), at most one FIRST line is emitted over the
whole process lifetime, in any arrival order of any number of requests;
once the flag is 1 it stays 1 and no further FIRST line appears; and when
at least one ordinary request arrives, exactly one request — the CAS
winner — produces the FIRST line. -/
theorem claim3_first_logged_once (u : Target) (logLevel : List Char)
    (arrivals : List Arrival) (hcas : casLevel logLevel = true) :
    countFirst (runRequests u logLevel false arrivals).2 ≤ 1 ∧
    (runRequests u logLevel true arrivals).1 = true ∧
    countFirst (runRequests u logLevel true arrivals).2 = 0 ∧
    ((∃ a ∈ arrivals, isUpgradeRequest a.req = false) →
      countFirst (runRequests u logLevel false arrivals).2 = 1) ∧
    (∀ (f : Bool) (r : Request) (env : UpgradeEnv)
        (b : Except (List Char) HttpResponse),
      handler u logLevel f r env b = handler u infoLit f r env b) :=
  ⟨runRequests_le_one u logLevel arrivals,
   (runRequests_true u logLevel arrivals).1,
   (runRequests_true u logLevel arrivals).2,
   runRequests_exists_one u logLevel arrivals hcas,
   fun f r env b => handler_info u logLevel f r env b hcas⟩

def debugLit : List Char := "debug".toList

def arrOrd : Arrival :=
  { req := reqPlain, env := envRelay,
    backend := Except.ok { status := 200, body := [] } }

/-- Witness for C3: two ordinary requests at the unrecognized level "debug"
produce exactly one FIRST line. -/
theorem claim3_witness :
    countFirst (runRequests tgtHttp debugLit false [arrOrd, arrOrd]).2 = 1 :=
  (claim3_first_logged_once tgtHttp debugLit [arrOrd, arrOrd]
      (by decide)).2.2.2.1
    ⟨arrOrd, List.mem_cons_self _ _, by decide⟩

end OpsProxy
